import Mathlib

/-!
# Verification of the CSB-CodeLabs multi-language execution dispatcher

This file is a shallow embedding in Lean 4 of the compiler-service core of the
CSB-CodeLabs repository (`compilerService.ts` plus the HTTP controller
`compilerController.ts`), together with theorems settling the specification
claims about it.

Conventions of the embedding:
* TypeScript strings become Lean `String` / `List Char`; the crude regex-based
  text manipulations of the source are re-implemented as character scanners
  with exactly the matching semantics of the JavaScript regexes they embed.
* Asynchronous subprocess invocations are modelled by explicit outcome
  parameters (oracles): a backend is a function of the outcomes of its
  toolchain phases.  Thrown JavaScript exceptions are modelled with `Except`,
  where the error payload `Option String` is `some msg` for an `Error` with
  message `msg` and `none` for a thrown non-`Error` value.
* Wall-clock time stamps (`Date.now() - startTime`) are modelled as `Nat`
  parameters.
* Filesystem lifecycle (claim C2) is modelled by per-branch effect traces.
-/

/-! ## Character constants (used to keep the scanners readable) -/

def newlineChar : Char := Char.ofNat 10
def carriageChar : Char := Char.ofNat 13
def lineSep2028 : Char := Char.ofNat 0x2028
def paraSep2029 : Char := Char.ofNat 0x2029
def squoteChar : Char := Char.ofNat 39
def dquoteChar : Char := Char.ofNat 34
def backslashChar : Char := Char.ofNat 92
def backtickChar : Char := Char.ofNat 96
def openBraceChar : Char := Char.ofNat 123
def closeBraceChar : Char := Char.ofNat 125

/-- JavaScript line terminators (`\n`, `\r`, U+2028, U+2029): the characters
that `.` does not match and that multiline `$` anchors before. -/
def isLineTermChar (c : Char) : Bool :=
  c = newlineChar || c = carriageChar || c = lineSep2028 || c = paraSep2029

/-! ## Generic string helpers -/

/-- `listStartsWith pat l` holds when `pat` is an initial segment of `l`. -/
def listStartsWith : List Char → List Char → Bool
  | [], _ => true
  | _ :: _, [] => false
  | p :: ps, c :: cs => p = c && listStartsWith ps cs

/-- Embedding of JavaScript `String.prototype.includes`: substring test,
implemented by trying every start position (recursion on the haystack). -/
def hasSub (pat : List Char) : List Char → Bool
  | [] => listStartsWith pat []
  | c :: cs => listStartsWith pat (c :: cs) || hasSub pat cs

/-- `jsIncludes s pat` is the JS expression `s.includes(pat)`. -/
def jsIncludes (s pat : String) : Bool := hasSub pat.toList s.toList

/-- Spec-side substring occurrence test, deliberately formulated differently
from `hasSub` (explicit quantification over start positions) so that agreement
between the two is a proved fact, not a definitional identity. -/
def occursIn (pat s : String) : Bool :=
  (List.range (s.toList.length + 1)).any fun i =>
    listStartsWith pat.toList (s.toList.drop i)

/-- JavaScript `String.prototype.toLowerCase` (ASCII behaviour). -/
def jsToLower (s : String) : String := String.mk (s.data.map Char.toLower)

/-- Remove leading and trailing whitespace from a character list. -/
def trimList (l : List Char) : List Char :=
  ((l.dropWhile Char.isWhitespace).reverse.dropWhile Char.isWhitespace).reverse

/-- JavaScript `String.prototype.trim`. -/
def jsTrim (s : String) : String := String.mk (trimList s.data)

/-- Split on newline characters (JS `code.split('\n')`). -/
def splitNlAux : List Char → List Char → List (List Char)
  | [], acc => [acc.reverse]
  | c :: cs, acc =>
    if c = newlineChar then acc.reverse :: splitNlAux cs [] else splitNlAux cs (c :: acc)

def jsSplitNl (s : String) : List String := (splitNlAux s.data []).map String.mk

/-! ## Language registry (`compilerService.ts`, lines 21–43) -/

/-- `SUPPORTED_LANGUAGES`: the fixed ten-language set of the source. -/
def SUPPORTED_LANGUAGES : List String :=
  ["c", "cpp", "python", "javascript",
   "typescript", "java", "php", "go",
   "html", "css"]

/-- `normalizeLanguageId`: `language.toLowerCase().trim()`. -/
def normalizeLanguageId (language : String) : String :=
  jsTrim (jsToLower language)

/-- `isSupportedLanguage`: membership of the normalized id in the set. -/
def isSupportedLanguage (language : String) : Bool :=
  SUPPORTED_LANGUAGES.contains (normalizeLanguageId language)

/-! ## Result contracts (`compilerService.ts`, lines 14–18, 48) -/

/-- `CompilerResult`: the unified execution result contract. -/
structure CompilerResult where
  output : String
  error : Option String
  executionTime : Nat
deriving DecidableEq, Repr

/-- The result shape of `checkSyntax`. -/
structure SyntaxCheckResult where
  hasError : Bool
  errorMessage : Option String
deriving DecidableEq, Repr

/-! ## The comment/string stripping pipeline (lines 78–81 / 136–139)

The source removes string literals, character literals, line comments and
block comments — in that order — with four global regex replaces before
counting braces.  Each replace is embedded as a fuelled left-to-right scanner
with exactly the JS regex's matching semantics (on failure at a position the
scan advances by one character, as a global regex does). -/

/-- Matcher for the tail of `/"[^"\\]*(?:\\.[^"\\]*)*"/` after the opening
double quote: consumes up to and including the closing quote.  A backslash
escapes the next character, except that `.` does not match a JS line
terminator, in which case the whole literal fails to match. -/
def dqTail : List Char → Option (List Char)
  | [] => none
  | c :: cs =>
    if c = dquoteChar then some cs
    else if c = backslashChar then
      match cs with
      | [] => none
      | d :: ds => if isLineTermChar d then none else dqTail ds
    else dqTail cs

/-- Same as `dqTail` for single-quoted literals. -/
def sqTail : List Char → Option (List Char)
  | [] => none
  | c :: cs =>
    if c = squoteChar then some cs
    else if c = backslashChar then
      match cs with
      | [] => none
      | d :: ds => if isLineTermChar d then none else sqTail ds
    else sqTail cs

/-- `code.replace(/"[^"\\]*(?:\\.[^"\\]*)*"/g, '""')`: every matched
double-quoted literal is replaced by an empty pair of quotes. -/
def stripDQAux : Nat → List Char → List Char
  | 0, l => l
  | _, [] => []
  | fuel + 1, c :: cs =>
    if c = dquoteChar then
      match dqTail cs with
      | some rest => dquoteChar :: dquoteChar :: stripDQAux fuel rest
      | none => c :: stripDQAux fuel cs
    else c :: stripDQAux fuel cs

/-- `code.replace(/'[^'\\]*(?:\\.[^'\\]*)*'/g, "''")`. -/
def stripSQAux : Nat → List Char → List Char
  | 0, l => l
  | _, [] => []
  | fuel + 1, c :: cs =>
    if c = squoteChar then
      match sqTail cs with
      | some rest => squoteChar :: squoteChar :: stripSQAux fuel rest
      | none => c :: stripSQAux fuel cs
    else c :: stripSQAux fuel cs

/-- `.replace(/\/\/.*$/gm, '')`: removes from `//` to just before the next
line terminator (or end of input). -/
def stripLineCommentsAux : Nat → List Char → List Char
  | 0, l => l
  | _, [] => []
  | fuel + 1, c :: cs =>
    match c :: cs with
    | '/' :: '/' :: rest =>
      stripLineCommentsAux fuel (rest.dropWhile fun d => !(isLineTermChar d))
    | _ => c :: stripLineCommentsAux fuel cs

/-- Finds the closing `*/` of a lazy block comment; returns the remainder
after it. -/
def blockCommentClose : List Char → Option (List Char)
  | '*' :: '/' :: rest => some rest
  | _ :: cs => blockCommentClose cs
  | [] => none

/-- `.replace(/\/\*[\s\S]*?\*\//g, '')`: removes each block comment up to the
nearest `*/`; an unclosed `/*` matches nothing and is left in place. -/
def stripBlockCommentsAux : Nat → List Char → List Char
  | 0, l => l
  | _, [] => []
  | fuel + 1, c :: cs =>
    match c :: cs with
    | '/' :: '*' :: rest =>
      match blockCommentClose rest with
      | some rem => stripBlockCommentsAux fuel rem
      | none => '/' :: stripBlockCommentsAux fuel ('*' :: rest)
    | _ => c :: stripBlockCommentsAux fuel cs

/-- The full stripping pipeline, in source order: double-quoted strings,
single-quoted (character) literals, line comments, block comments. -/
def stripForBraces (code : String) : List Char :=
  let l0 := code.toList
  let l1 := stripDQAux l0.length l0
  let l2 := stripSQAux l1.length l1
  let l3 := stripLineCommentsAux l2.length l2
  stripBlockCommentsAux l3.length l3

/-! ## Python indentation heuristic (`checkSyntax`, lines 94–131) -/

/-- `line.length - line.trimStart().length`: the number of leading whitespace
characters of a line. -/
def leadingWsCount (line : String) : Nat :=
  (line.toList.takeWhile Char.isWhitespace).length

/-- `line.trim().startsWith('#')`: a Python comment line. -/
def isCommentLine (line : String) : Bool :=
  listStartsWith "#".toList (jsTrim line).toList

/-- The non-blank lines of the code (`code.split('\n').filter(...)`). -/
def pyLines (code : String) : List String :=
  (jsSplitNl code).filter fun l => jsTrim l != ""

/-- The scanning loop of the Python branch: carries `previousIndent`, skips
comment lines, and reports `true` (inconsistent) on the first line whose
indent — or indent increase — trips the heuristic; both checks only fire when
the line's indent and the carried `previousIndent` are positive. -/
def pyScanFlag : Nat → List String → Bool
  | _, [] => false
  | prev, line :: rest =>
    if isCommentLine line then pyScanFlag prev rest
    else
      let indent := leadingWsCount line
      if 0 < indent ∧ 0 < prev then
        if indent % 4 ≠ 0 ∧ indent % 2 ≠ 0 then true
        else if prev < indent ∧ (indent - prev) % 2 ≠ 0 ∧ (indent - prev) % 4 ≠ 0 then true
        else pyScanFlag (if 0 < indent then indent else prev) rest
      else pyScanFlag (if 0 < indent then indent else prev) rest

/-- The Python branch's `inconsistentIndentation` flag. -/
def pyInconsistent (code : String) : Bool :=
  pyScanFlag 0 (pyLines code)

/-! ## JavaScript/TypeScript unterminated-string scan (lines 150–209) -/

/-- The mutable locals of the JS/TS scanning loop. -/
structure JsScanState where
  inSingleQuote : Bool
  inDoubleQuote : Bool
  inTemplateLiteral : Bool
  escapeNext : Bool
  stringStartLine : Nat
  currentLine : Nat
  stringType : String
deriving DecidableEq, Repr

/-- The first statement of the loop body: the line counter is bumped on
every newline (before the escape handling, so a newline after a backslash
still counts). -/
def jsBumpLine (st : JsScanState) (c : Char) : JsScanState :=
  if c = newlineChar then { st with currentLine := st.currentLine + 1 } else st

/-- The rest of the loop body: the escape flag is consumed or set, then the
open/close transitions. -/
def jsScanCore (st : JsScanState) (c : Char) : JsScanState :=
  if st.escapeNext then { st with escapeNext := false }
  else if c = backslashChar then { st with escapeNext := true }
  else if !st.inSingleQuote && !st.inDoubleQuote && !st.inTemplateLiteral then
    if c = squoteChar then
      { st with inSingleQuote := true, stringStartLine := st.currentLine,
                stringType := "single quote" }
    else if c = dquoteChar then
      { st with inDoubleQuote := true, stringStartLine := st.currentLine,
                stringType := "double quote" }
    else if c = backtickChar then
      { st with inTemplateLiteral := true, stringStartLine := st.currentLine,
                stringType := "template literal" }
    else st
  else if st.inSingleQuote && c = squoteChar then { st with inSingleQuote := false }
  else if st.inDoubleQuote && c = dquoteChar then { st with inDoubleQuote := false }
  else if st.inTemplateLiteral && c = backtickChar then { st with inTemplateLiteral := false }
  else st

/-- One iteration of the loop body, in source order. -/
def jsScanStep (st : JsScanState) (c : Char) : JsScanState :=
  jsScanCore (jsBumpLine st c) c

/-- Initial state: no string open, `stringStartLine = 0`, `currentLine = 1`. -/
def jsScanInit : JsScanState :=
  { inSingleQuote := false, inDoubleQuote := false, inTemplateLiteral := false,
    escapeNext := false, stringStartLine := 0, currentLine := 1, stringType := "" }

/-- The state after scanning the whole code. -/
def jsScanFinal (code : String) : JsScanState :=
  code.toList.foldl jsScanStep jsScanInit

/-- The interpolated unterminated-string message. -/
def unterminatedMsg (t : String) (n : Nat) : String :=
  "SyntaxError: unterminated " ++ t ++ " starting at line " ++ toString n

/-! ## `checkSyntax` (lines 48–215) -/

def noCodeMsg : String := "No code to compile. Please enter some code."
def mainMissingMsg : String :=
  "Error: missing 'main' function. Every C/C++ program must have a main function."
def semicolonMsg : String := "Syntax Error: missing semicolon ';'"
def cBraceMsg : String := "Error: missing closing curly brace '\x7d'"
def indentMsg : String := "IndentationError: inconsistent indentation detected"
def jsBraceMsg : String := "SyntaxError: missing closing curly brace '\x7d'"

/-- `checkSyntax(code, languageId)`: the switch is on the *raw* language id
(JS `switch` uses strict equality, embedded as an equality chain). -/
def checkSyntax (code languageId : String) : SyntaxCheckResult :=
  if jsTrim code = "" then ⟨true, some noCodeMsg⟩
  else if languageId = "c" ∨ languageId = "cpp" then
    if !(jsIncludes code "main(") && !(jsIncludes code "main (") then
      ⟨true, some mainMissingMsg⟩
    else if jsIncludes code "printf(" && !(jsIncludes code ";") then
      ⟨true, some semicolonMsg⟩
    else
      let stripped := stripForBraces code
      if stripped.count closeBraceChar < stripped.count openBraceChar then
        ⟨true, some cBraceMsg⟩
      else ⟨false, none⟩
  else if languageId = "python" then
    if pyInconsistent code then ⟨true, some indentMsg⟩ else ⟨false, none⟩
  else if languageId = "javascript" ∨ languageId = "typescript" then
    let stripped := stripForBraces code
    if stripped.count closeBraceChar < stripped.count openBraceChar then
      ⟨true, some jsBraceMsg⟩
    else
      let fin := jsScanFinal code
      if fin.inSingleQuote || fin.inDoubleQuote || fin.inTemplateLiteral then
        ⟨true, some (unterminatedMsg fin.stringType fin.stringStartLine)⟩
      else ⟨false, none⟩
  else ⟨false, none⟩

/-! ## Output simulator print-extraction (`simulateExecution`, lines 638–697)

Each language's regex is embedded as a position-by-position scanner: at each
position a match is attempted; on success the captured text is appended with
a newline and scanning resumes after the match; on failure the scan advances
one character. -/

/-- `if l starts with pat, drop it` — the literal part of a regex. -/
def dropLit (pat : String) (l : List Char) : Option (List Char) :=
  if listStartsWith pat.toList l then some (l.drop pat.toList.length) else none

/-- Consume one mandatory character. -/
def expectChar (c : Char) : List Char → Option (List Char)
  | x :: xs => if x = c then some xs else none
  | [] => none

/-- `\s*` (JS whitespace approximated by `Char.isWhitespace`). -/
def skipWs (l : List Char) : List Char := l.dropWhile Char.isWhitespace

/-- Tail of `/printf\s*\(\s*"([^"]*)"/` after `printf`: returns the capture
and the remainder after the closing quote. -/
def cPrintfTail (l : List Char) : Option (String × List Char) := do
  let l := skipWs l
  let l ← expectChar '(' l
  let l := skipWs l
  let l ← expectChar dquoteChar l
  let cap := l.takeWhile fun c => c ≠ dquoteChar
  let r := l.dropWhile fun c => c ≠ dquoteChar
  let r ← expectChar dquoteChar r
  return (String.mk cap, r)

/-- Match attempt of the C `printf` regex at the current position. -/
def cMatchAt (l : List Char) : Option (String × List Char) := do
  let l ← dropLit "printf" l
  cPrintfTail l

/-- Match attempt of the C++ `cout << "…"` regex
(`/cout\s*<<\s*"([^"]*)"/`). -/
def cppMatchAt (l : List Char) : Option (String × List Char) := do
  let l ← dropLit "cout" l
  let l := skipWs l
  let l ← expectChar '<' l
  let l ← expectChar '<' l
  let l := skipWs l
  let l ← expectChar dquoteChar l
  let cap := l.takeWhile fun c => c ≠ dquoteChar
  let r := l.dropWhile fun c => c ≠ dquoteChar
  let r ← expectChar dquoteChar r
  return (String.mk cap, r)

/-- Alternative `["']([^"']*)["']` followed immediately by `\)`: an opening
quote of either kind, a capture free of both quote characters, a closing
quote of either kind, then the closing parenthesis. -/
def quotedThenParen (l : List Char) : Option (String × List Char) :=
  match l with
  | q :: rest =>
    if q = dquoteChar || q = squoteChar then
      let cap := rest.takeWhile fun c => c ≠ dquoteChar && c ≠ squoteChar
      let r := rest.dropWhile fun c => c ≠ dquoteChar && c ≠ squoteChar
      match r with
      | _ :: r2 =>
        match r2 with
        | c3 :: r3 => if c3 = ')' then some (String.mk cap, r3) else none
        | [] => none
      | [] => none
    else none
  | [] => none

/-- Alternative `([^)]*)\s*` followed by `\)`: capture everything up to the
first closing parenthesis. -/
def rawThenParen (l : List Char) : Option (String × List Char) := do
  let cap := l.takeWhile fun c => c ≠ ')'
  let r := l.dropWhile fun c => c ≠ ')'
  let r ← expectChar ')' r
  return (String.mk cap, r)

/-- JS `match[1] || match[2] || ""`: an empty capture contributes nothing. -/
def captureOrEmpty (cap : String) : String := if cap = "" then "" else cap

/-- Match attempt of the Python `print` regex
(`/print\s*\(\s*(?:f?["']([^"']*)["']|([^)]*)\s*)\)/`) at the current
position.  The optional `f` is consumed only when a quote follows (otherwise
both `f?` branches of the regex fail and the second alternative applies). -/
def pyMatchAt (l : List Char) : Option (String × List Char) := do
  let l ← dropLit "print" l
  let l := skipWs l
  let l ← expectChar '(' l
  let l := skipWs l
  let body := match l with
    | 'f' :: c :: rest =>
      if c = dquoteChar || c = squoteChar then quotedThenParen (c :: rest)
      else quotedThenParen l
    | _ => quotedThenParen l
  match body with
  | some (cap, r) => return (captureOrEmpty cap, r)
  | none =>
    let (cap, r) ← rawThenParen l
    return (captureOrEmpty cap, r)

/-- Match attempt of the JS/TS `console.log` regex
(`/console\.log\s*\(\s*(?:["']([^"']*)["']|([^)]*)\s*)\)/`). -/
def jsLogMatchAt (l : List Char) : Option (String × List Char) := do
  let l ← dropLit "console.log" l
  let l := skipWs l
  let l ← expectChar '(' l
  let l := skipWs l
  match quotedThenParen l with
  | some (cap, r) => return (captureOrEmpty cap, r)
  | none =>
    let (cap, r) ← rawThenParen l
    return (captureOrEmpty cap, r)

/-- The global-regex `exec` loop: at each position try `matchAt`; append
`capture ++ "\n"` on success and continue after the match. -/
def extractLoop (matchAt : List Char → Option (String × List Char)) :
    Nat → List Char → String
  | 0, _ => ""
  | _, [] => ""
  | fuel + 1, c :: cs =>
    match matchAt (c :: cs) with
    | some (cap, rem) => cap ++ "\n" ++ extractLoop matchAt fuel rem
    | none => extractLoop matchAt fuel cs

def cPrintfExtract (code : String) : String :=
  extractLoop cMatchAt code.toList.length code.toList

def cppCoutExtract (code : String) : String :=
  extractLoop cppMatchAt code.toList.length code.toList

def pyPrintExtract (code : String) : String :=
  extractLoop pyMatchAt code.toList.length code.toList

def jsConsoleExtract (code : String) : String :=
  extractLoop jsLogMatchAt code.toList.length code.toList

/-! ## `simulateExecution` (lines 638–697) -/

def frontendMsg : String :=
  "Frontend code doesn't produce console output directly.\nRendering in the preview panel."
def notImplementedMsg : String :=
  "Language execution simulation not implemented yet.\nProgram executed successfully."
def noOutputMsg : String := "Program executed successfully with no output."

/-- The `output` accumulated by the `switch` of `simulateExecution`, before
the empty-output substitution. -/
def extractedOutput (code languageId : String) : String :=
  if languageId = "c" then cPrintfExtract code
  else if languageId = "cpp" then cppCoutExtract code
  else if languageId = "python" then pyPrintExtract code
  else if languageId = "javascript" ∨ languageId = "typescript" then jsConsoleExtract code
  else if languageId = "html" ∨ languageId = "css" then frontendMsg
  else notImplementedMsg

/-- `simulateExecution(code, languageId)`: synchronous, never fails; the
elapsed time is an oracle parameter `t`. -/
def simulateExecution (code languageId : String) (t : Nat) : CompilerResult :=
  let output := extractedOutput code languageId
  let output :=
    if output = "" ∧ languageId ≠ "html" ∧ languageId ≠ "css" then noOutputMsg
    else output
  ⟨output, none, t⟩

/-! ## Dispatcher (`executeCode`, lines 220–253) -/

/-- The eight toolchain-backed execution backends. -/
inductive Backend where
  | c | cpp | python | javascript | typescript | java | php | go
deriving DecidableEq, Repr

/-- The `switch (language)` of `executeCode`: strict string equality on the
*raw* (un-normalized) language id, embedded as an equality chain; anything
else falls to the `default` (simulator) branch. -/
def routeOf (language : String) : Option Backend :=
  if language = "c" then some .c
  else if language = "cpp" then some .cpp
  else if language = "python" then some .python
  else if language = "javascript" then some .javascript
  else if language = "typescript" then some .typescript
  else if language = "java" then some .java
  else if language = "php" then some .php
  else if language = "go" then some .go
  else none

/-- `error instanceof Error ? error.message : 'Unknown execution error'`.
A thrown value is `some msg` (an `Error` with that message) or `none`. -/
def jsErrMessage : Option String → String
  | some m => m
  | none => "Unknown execution error"

/-- The catch-all of `executeCode`: an exception becomes a result with empty
output, the exception's message as error, and the elapsed time `t`. -/
def catchResult (r : Except (Option String) CompilerResult) (t : Nat) : CompilerResult :=
  match r with
  | .ok v => v
  | .error e => ⟨"", some (jsErrMessage e), t⟩

/-- `executeCode(code, language)`: routes on the raw id; `run` is the oracle
giving each backend's outcome (`.error` = the backend threw); the whole call
is wrapped in the catch-all. -/
def executeCode (code language : String)
    (run : Backend → Except (Option String) CompilerResult) (t : Nat) : CompilerResult :=
  let routed : Except (Option String) CompilerResult :=
    match routeOf language with
    | some b => run b
    | none => .ok (simulateExecution code language t)
  catchResult routed t

/-! ## Two-phase compiled backends (result semantics; lines 258–365, 490–552)

A toolchain phase outcome:  `.ok stdout stderr` for a zero-exit invocation,
`.err stdout stderr` for a failed one (non-zero exit, timeout or buffer
overflow), where a missing captured stream is `none`. -/

inductive PhaseResult where
  | ok (stdout stderr : String)
  | err (stdout stderr : Option String)
deriving DecidableEq, Repr

/-- JS `x || dflt` on an optional string: `undefined`, missing or empty
falls back to the default. -/
def jsOrStr (x : Option String) (dflt : String) : String :=
  match x with
  | none => dflt
  | some s => if s = "" then dflt else s

/-- JS `stderr || null`. -/
def strOrNull (s : String) : Option String :=
  if s = "" then none else some s

/-- `compileAndRunC`: on compiler failure return immediately (the run phase
`run` is a thunk that is never forced); on compiler success invoke the
artifact.  `tc`/`tr` are the elapsed times measured at the compile-failure
and run-return points. -/
def compileAndRunC (compile : PhaseResult) (run : Unit → PhaseResult)
    (tc tr : Nat) : CompilerResult :=
  match compile with
  | .err _ se => ⟨"", some (jsOrStr se "Compilation error"), tc⟩
  | .ok _ _ =>
    match run () with
    | .ok out errS => ⟨out, strOrNull errS, tr⟩
    | .err out se => ⟨jsOrStr out "", some (jsOrStr se "Runtime error"), tr⟩

/-- `compileAndRunCpp`: identical shape to the C backend (g++ instead of
gcc). -/
def compileAndRunCpp (compile : PhaseResult) (run : Unit → PhaseResult)
    (tc tr : Nat) : CompilerResult :=
  match compile with
  | .err _ se => ⟨"", some (jsOrStr se "Compilation error"), tc⟩
  | .ok _ _ =>
    match run () with
    | .ok out errS => ⟨out, strOrNull errS, tr⟩
    | .err out se => ⟨jsOrStr out "", some (jsOrStr se "Runtime error"), tr⟩

/-! ### Java public-class extraction (`/public\s+class\s+(\w+)/`) -/

/-- JS `\w`: `[A-Za-z0-9_]`. -/
def isWordChar (c : Char) : Bool := c.isAlphanum || c = '_'

/-- `\s+`: at least one whitespace character, consumed greedily. -/
def wsPlus : List Char → Option (List Char)
  | c :: cs => if c.isWhitespace then some (cs.dropWhile Char.isWhitespace) else none
  | [] => none

/-- Match attempt of the class-name regex at the current position. -/
def javaClassAt (l : List Char) : Option String := do
  let l ← dropLit "public" l
  let l ← wsPlus l
  let l ← dropLit "class" l
  let l ← wsPlus l
  let name := l.takeWhile isWordChar
  if name.isEmpty then none else some (String.mk name)

/-- Scan for the first match position. -/
def javaClassScan : Nat → List Char → Option String
  | 0, _ => none
  | _, [] => none
  | fuel + 1, c :: cs =>
    match javaClassAt (c :: cs) with
    | some n => some n
    | none => javaClassScan fuel cs

/-- `code.match(/public\s+class\s+(\w+)/)`, reduced to its capture. -/
def javaClassMatch (code : String) : Option String :=
  javaClassScan (code.toList.length + 1) code.toList

/-- `compileAndRunJava`: fails up front with "No public class found in the
code" when the class-name regex does not match (before any file is written);
otherwise a two-phase compile-then-run like the C backend. -/
def compileAndRunJava (code : String) (compile : PhaseResult)
    (run : Unit → PhaseResult) (t0 tc tr : Nat) : CompilerResult :=
  match javaClassMatch code with
  | none => ⟨"", some "No public class found in the code", t0⟩
  | some _ =>
    match compile with
    | .err _ se => ⟨"", some (jsOrStr se "Compilation error"), tc⟩
    | .ok _ _ =>
      match run () with
      | .ok out errS => ⟨out, strOrNull errS, tr⟩
      | .err out se => ⟨jsOrStr out "", some (jsOrStr se "Runtime error"), tr⟩

/-! ## Workspace lifecycle traces (claim C2)

Each backend's filesystem/process behaviour per exit branch, read off the
source: every branch creates the temp workspace (via `temp.mkdirSync`),
writes the source file, invokes the toolchain — and the `finally` block of
every backend is empty (cleanup is delegated to `temp.track()`, which removes
tracked directories only at *process exit*), so no branch ever emits a
workspace removal. -/

inductive FsEffect where
  /-- `temp.mkdirSync(prefName)` — creates the per-call workspace. -/
  | mkTempDir (prefName : String)
  /-- `fs.writeFile` of the canonical source file. -/
  | writeFile (name : String)
  /-- `execAsync` of a toolchain command. -/
  | execCmd (tool : String)
  /-- removal of the workspace (never emitted by any backend). -/
  | removeDir
deriving DecidableEq, Repr

/-- Exit branches of a two-phase (compile then run) backend.  `.threw` is an
exception escaping mid-call (e.g. the source-file write failing). -/
inductive TwoPhasePath where
  | compileError | runOk | runError | threw
deriving DecidableEq, Repr

/-- Exit branches of a single-invocation backend. -/
inductive SinglePath where
  | runOk | runError | threw
deriving DecidableEq, Repr

/-- Exit branches of the Java backend. -/
inductive JavaPath where
  | noClass | compileError | runOk | runError | threw
deriving DecidableEq, Repr

/-- The (empty) `finally` block every backend ends with:
`// Cleanup will be handled by temp.track()`. -/
def backendFinallyCleanup : List FsEffect := []

def compileAndRunC_workspaceTrace : TwoPhasePath → List FsEffect
  | .compileError =>
    [.mkTempDir "c-compiler", .writeFile "main.c", .execCmd "gcc"] ++ backendFinallyCleanup
  | .runOk =>
    [.mkTempDir "c-compiler", .writeFile "main.c", .execCmd "gcc",
     .execCmd "main.out"] ++ backendFinallyCleanup
  | .runError =>
    [.mkTempDir "c-compiler", .writeFile "main.c", .execCmd "gcc",
     .execCmd "main.out"] ++ backendFinallyCleanup
  | .threw => [.mkTempDir "c-compiler"] ++ backendFinallyCleanup

def compileAndRunCpp_workspaceTrace : TwoPhasePath → List FsEffect
  | .compileError =>
    [.mkTempDir "cpp-compiler", .writeFile "main.cpp", .execCmd "g++"] ++ backendFinallyCleanup
  | .runOk =>
    [.mkTempDir "cpp-compiler", .writeFile "main.cpp", .execCmd "g++",
     .execCmd "main.out"] ++ backendFinallyCleanup
  | .runError =>
    [.mkTempDir "cpp-compiler", .writeFile "main.cpp", .execCmd "g++",
     .execCmd "main.out"] ++ backendFinallyCleanup
  | .threw => [.mkTempDir "cpp-compiler"] ++ backendFinallyCleanup

def runPython_workspaceTrace : SinglePath → List FsEffect
  | .runOk => [.mkTempDir "python-runner", .writeFile "main.py", .execCmd "python3"]
      ++ backendFinallyCleanup
  | .runError => [.mkTempDir "python-runner", .writeFile "main.py", .execCmd "python3"]
      ++ backendFinallyCleanup
  | .threw => [.mkTempDir "python-runner"] ++ backendFinallyCleanup

def runJavaScript_workspaceTrace : SinglePath → List FsEffect
  | .runOk => [.mkTempDir "javascript-runner", .writeFile "main.js", .execCmd "node"]
      ++ backendFinallyCleanup
  | .runError => [.mkTempDir "javascript-runner", .writeFile "main.js", .execCmd "node"]
      ++ backendFinallyCleanup
  | .threw => [.mkTempDir "javascript-runner"] ++ backendFinallyCleanup

def runTypeScript_workspaceTrace : SinglePath → List FsEffect
  | .runOk => [.mkTempDir "typescript-runner", .writeFile "main.ts", .execCmd "npx ts-node"]
      ++ backendFinallyCleanup
  | .runError => [.mkTempDir "typescript-runner", .writeFile "main.ts", .execCmd "npx ts-node"]
      ++ backendFinallyCleanup
  | .threw => [.mkTempDir "typescript-runner"] ++ backendFinallyCleanup

def compileAndRunJava_workspaceTrace (cls : String) : JavaPath → List FsEffect
  | .noClass => [] ++ backendFinallyCleanup
  | .compileError =>
    [.mkTempDir "java-compiler", .writeFile (cls ++ ".java"), .execCmd "javac"]
      ++ backendFinallyCleanup
  | .runOk =>
    [.mkTempDir "java-compiler", .writeFile (cls ++ ".java"), .execCmd "javac",
     .execCmd "java"] ++ backendFinallyCleanup
  | .runError =>
    [.mkTempDir "java-compiler", .writeFile (cls ++ ".java"), .execCmd "javac",
     .execCmd "java"] ++ backendFinallyCleanup
  | .threw => [.mkTempDir "java-compiler"] ++ backendFinallyCleanup

def runPhp_workspaceTrace : SinglePath → List FsEffect
  | .runOk => [.mkTempDir "php-runner", .writeFile "main.php", .execCmd "php"]
      ++ backendFinallyCleanup
  | .runError => [.mkTempDir "php-runner", .writeFile "main.php", .execCmd "php"]
      ++ backendFinallyCleanup
  | .threw => [.mkTempDir "php-runner"] ++ backendFinallyCleanup

def compileAndRunGo_workspaceTrace : SinglePath → List FsEffect
  | .runOk => [.mkTempDir "go-compiler", .writeFile "main.go", .execCmd "go run"]
      ++ backendFinallyCleanup
  | .runError => [.mkTempDir "go-compiler", .writeFile "main.go", .execCmd "go run"]
      ++ backendFinallyCleanup
  | .threw => [.mkTempDir "go-compiler"] ++ backendFinallyCleanup

/-- Every (backend, exit-branch) trace of the service, for quantification. -/
def backendWorkspaceTraces : List (List FsEffect) :=
  (([TwoPhasePath.compileError, .runOk, .runError, .threw].map compileAndRunC_workspaceTrace)
    ++ ([TwoPhasePath.compileError, .runOk, .runError, .threw].map compileAndRunCpp_workspaceTrace)
    ++ ([SinglePath.runOk, .runError, .threw].map runPython_workspaceTrace)
    ++ ([SinglePath.runOk, .runError, .threw].map runJavaScript_workspaceTrace)
    ++ ([SinglePath.runOk, .runError, .threw].map runTypeScript_workspaceTrace)
    ++ ([JavaPath.noClass, .compileError, .runOk, .runError, .threw].map
          (compileAndRunJava_workspaceTrace "Main"))
    ++ ([SinglePath.runOk, .runError, .threw].map runPhp_workspaceTrace)
    ++ ([SinglePath.runOk, .runError, .threw].map compileAndRunGo_workspaceTrace))

/-! ## HTTP controller (`compilerController.ts`, lines 12–58) -/

/-- The two response shapes the controller produces on the happy paths. -/
inductive HttpResp where
  /-- `res.status(400).json({success:false, error})`. -/
  | badRequest (error : Option String)
  /-- `res.status(200).json({success:true, output, error, executionTime})`. -/
  | okResp (output : String) (error : Option String) (time : Nat)
deriving DecidableEq, Repr

/-- JS falsiness of `req.body.code` / `req.body.language`: an absent field
(`none`, i.e. `undefined`) and the empty string are both falsy. -/
def jsFalsyField : Option String → Bool
  | none => true
  | some s => s = ""

/-- `compileCode(req, res)`: validation, registry check, syntax check, then
execution; `run`/`t` are the oracles threaded to `executeCode`. -/
def compileCode (code language : Option String)
    (run : Backend → Except (Option String) CompilerResult) (t : Nat) : HttpResp :=
  if jsFalsyField code || jsFalsyField language then
    .badRequest (some "Code and language are required")
  else
    let c := code.getD ""
    let l := language.getD ""
    if !(isSupportedLanguage l) then
      .badRequest (some ("Language '" ++ l ++ "' is not supported"))
    else
      let sc := checkSyntax c l
      if sc.hasError then .badRequest sc.errorMessage
      else
        let r := executeCode c l run t
        .okResp r.output r.error r.executionTime

/-! ## Spec-side models

These definitions follow the wording of the specification claims (not the
source); the claim theorems relate them to the embedded code above. -/

/-- Modelled from the spec (claim C6): the C/C++ check reports an error
exactly when, tested in this order: (1) the code contains neither `main(`
nor `main (`; (2) the code contains `printf(` but no semicolon anywhere;
(3) after the stripping substitutions, open braces outnumber close braces. -/
def cCheckSpec (code : String) : SyntaxCheckResult :=
  if !(occursIn "main(" code) && !(occursIn "main (" code) then
    ⟨true, some mainMissingMsg⟩
  else if occursIn "printf(" code && !(occursIn ";" code) then
    ⟨true, some semicolonMsg⟩
  else if (stripForBraces code).count closeBraceChar < (stripForBraces code).count openBraceChar then
    ⟨true, some cBraceMsg⟩
  else ⟨false, none⟩

/-- The three string kinds of the JS/TS scan, per the spec. -/
inductive StrKind where
  | single | double | template
deriving DecidableEq, Repr

def kindName : StrKind → String
  | .single => "single quote"
  | .double => "double quote"
  | .template => "template literal"

def kindOpenChar : StrKind → Char
  | .single => squoteChar
  | .double => dquoteChar
  | .template => backtickChar

/-- Spec-side scanner state: which string (if any) is open and the line it
began on, the escape flag, and the current line. -/
structure SpecScanState where
  openStr : Option (StrKind × Nat)
  esc : Bool
  line : Nat
deriving DecidableEq, Repr

/-- Spec-side line bump: every newline increments the line counter
(including inside strings). -/
def specBumpLine (st : SpecScanState) (c : Char) : SpecScanState :=
  if c = newlineChar then { st with line := st.line + 1 } else st

/-- Modelled from the spec (claim C7): a single linear scan in which a
backslash escapes exactly the next character (including inside strings), a
quote character opens a string (recording the current line) when none is
open, and the matching quote character closes it. -/
def specScanCore (st : SpecScanState) (c : Char) : SpecScanState :=
  if st.esc then { st with esc := false }
  else if c = backslashChar then { st with esc := true }
  else
    match st.openStr with
    | none =>
      if c = squoteChar then { st with openStr := some (.single, st.line) }
      else if c = dquoteChar then { st with openStr := some (.double, st.line) }
      else if c = backtickChar then { st with openStr := some (.template, st.line) }
      else st
    | some (k, _) =>
      if c = kindOpenChar k then { st with openStr := none } else st

/-- One spec-side iteration. -/
def specScanStep (st : SpecScanState) (c : Char) : SpecScanState :=
  specScanCore (specBumpLine st c) c

def specScanFinal (code : String) : SpecScanState :=
  code.toList.foldl specScanStep { openStr := none, esc := false, line := 1 }

/-- The simulation relation between the source scanner's state (three
booleans plus message fragments) and the spec scanner's state: the open
string, escape flag and line counter agree, and while a string is open the
recorded kind name and start line agree. -/
def ScanRel (a : JsScanState) (b : SpecScanState) : Prop :=
  (a.inSingleQuote = true ↔ ∃ n, b.openStr = some (StrKind.single, n)) ∧
  (a.inDoubleQuote = true ↔ ∃ n, b.openStr = some (StrKind.double, n)) ∧
  (a.inTemplateLiteral = true ↔ ∃ n, b.openStr = some (StrKind.template, n)) ∧
  a.escapeNext = b.esc ∧
  a.currentLine = b.line ∧
  ∀ k n, b.openStr = some (k, n) → a.stringType = kindName k ∧ a.stringStartLine = n

/-- The per-line indents the Python heuristic walks: non-blank, non-comment
lines mapped to their leading-whitespace count. -/
def pyIndentSeq (code : String) : List Nat :=
  ((pyLines code).filter fun l => !(isCommentLine l)).map leadingWsCount

/-- The "previous non-zero indent" before a point: the last positive entry
of the preceding indents, else the seed. -/
def prevPositive (seed : Nat) (l : List Nat) : Nat :=
  ((l.filter fun x => decide (0 < x)).getLast?).getD seed

/-- Modelled from the spec (claim C8, as amended): the heuristic flags the
code exactly when some walked line has positive indent, the tracked previous
non-zero indent is also positive, and either the line's indent is not a
multiple of 2 or of 4, or it is an indent increase whose delta is not a
multiple of 2 or of 4. -/
def specPyFlagged (code : String) : Prop :=
  ∃ pre ind post, pyIndentSeq code = pre ++ ind :: post ∧
    0 < ind ∧ 0 < prevPositive 0 pre ∧
    ((¬ ind % 2 = 0 ∧ ¬ ind % 4 = 0) ∨
     (prevPositive 0 pre < ind ∧
      ¬ (ind - prevPositive 0 pre) % 2 = 0 ∧ ¬ (ind - prevPositive 0 pre) % 4 = 0))

/-- The numeric core of the Python indentation loop: `pyScanFlag` with the
lines already reduced to their indent counts (comment lines removed). -/
def pyFlagNat : Nat → List Nat → Bool
  | _, [] => false
  | prev, ind :: rest =>
    if 0 < ind ∧ 0 < prev then
      if ind % 4 ≠ 0 ∧ ind % 2 ≠ 0 then true
      else if prev < ind ∧ (ind - prev) % 2 ≠ 0 ∧ (ind - prev) % 4 ≠ 0 then true
      else pyFlagNat (if 0 < ind then ind else prev) rest
    else pyFlagNat (if 0 < ind then ind else prev) rest

/-! # Helper lemmas -/

theorem eqTrueIffFalse {x : Bool} {P : Prop} (h : x = true ↔ P) (hnp : ¬P) :
    x = false := by
  cases x with
  | false => rfl
  | true => exact absurd (h.mp rfl) hnp

/-- The recursive substring test agrees with the positional one. -/
theorem hasSub_eq_rangeAny (pat l : List Char) :
    hasSub pat l
      = (List.range (l.length + 1)).any fun i => listStartsWith pat (l.drop i) := by
  induction l with
  | nil =>
    show listStartsWith pat [] = List.any [0] fun i => listStartsWith pat []
    simp
  | cons c cs ih =>
    rw [hasSub, List.length_cons, List.range_succ_eq_map, List.any_cons, List.any_map]
    have hcmp :
        ((fun i => listStartsWith pat (List.drop i (c :: cs))) ∘ Nat.succ)
          = fun i => listStartsWith pat (List.drop i cs) := by
      funext i
      simp [Function.comp, List.drop_succ_cons]
    rw [hcmp, ih]
    simp

/-- `s.includes(pat)` (embedded) agrees with the spec-side occurrence test. -/
theorem jsIncludes_eq_occursIn (s pat : String) :
    jsIncludes s pat = occursIn pat s :=
  hasSub_eq_rangeAny pat.toList s.toList

/-! ## Simulation of the JS/TS scanner by the spec scanner (claim C7) -/

theorem scanRel_bump (c : Char) {a : JsScanState} {b : SpecScanState}
    (h : ScanRel a b) : ScanRel (jsBumpLine a c) (specBumpLine b c) := by
  obtain ⟨h1, h2, h3, h4, h5, h6⟩ := h
  unfold jsBumpLine specBumpLine
  by_cases hc : c = newlineChar
  · simp only [hc, if_pos rfl]
    exact ⟨h1, h2, h3, h4, by simp [h5], h6⟩
  · simp only [if_neg hc]
    exact ⟨h1, h2, h3, h4, h5, h6⟩

/-- The scanner's special characters are pairwise distinct. -/
theorem sq_ne_bs : squoteChar ≠ backslashChar := by decide
theorem dq_ne_bs : dquoteChar ≠ backslashChar := by decide
theorem bt_ne_bs : backtickChar ≠ backslashChar := by decide
theorem sq_ne_dq : squoteChar ≠ dquoteChar := by decide
theorem dq_ne_sq : dquoteChar ≠ squoteChar := by decide
theorem sq_ne_bt : squoteChar ≠ backtickChar := by decide
theorem bt_ne_sq : backtickChar ≠ squoteChar := by decide
theorem dq_ne_bt : dquoteChar ≠ backtickChar := by decide
theorem bt_ne_dq : backtickChar ≠ dquoteChar := by decide

theorem scanRel_core (c : Char) {a : JsScanState} {b : SpecScanState}
    (h : ScanRel a b) : ScanRel (jsScanCore a c) (specScanCore b c) := by
  obtain ⟨h1, h2, h3, h4, h5, h6⟩ := h
  unfold jsScanCore specScanCore
  by_cases hesc : b.esc = true
  · have ha : a.escapeNext = true := by rw [h4, hesc]
    simp only [ha, hesc, if_pos rfl]
    exact ⟨h1, h2, h3, rfl, h5, h6⟩
  · have hesc' : b.esc = false := by
      cases hb : b.esc
      · rfl
      · exact absurd hb hesc
    have ha' : a.escapeNext = false := by rw [h4, hesc']
    by_cases hbs : c = backslashChar
    · simp [ha', hesc', hbs]
      exact ⟨h1, h2, h3, rfl, h5, h6⟩
    · cases hop : b.openStr with
      | none =>
        have f1 : a.inSingleQuote = false := eqTrueIffFalse h1 (by simp [hop])
        have f2 : a.inDoubleQuote = false := eqTrueIffFalse h2 (by simp [hop])
        have f3 : a.inTemplateLiteral = false := eqTrueIffFalse h3 (by simp [hop])
        by_cases hc1 : c = squoteChar
        · simp [ha', hesc', hbs, sq_ne_bs, dq_ne_bs, bt_ne_bs, sq_ne_dq, dq_ne_sq, sq_ne_bt, bt_ne_sq, dq_ne_bt, bt_ne_dq, f1, f2, f3, hop, hc1]
          refine ⟨by simp, by simp [f2], by simp [f3], rfl, h5, ?_⟩
          intro k n hkn
          injection hkn with hkn'
          injection hkn' with hk hn
          subst hk
          subst hn
          exact ⟨rfl, h5⟩
        · by_cases hc2 : c = dquoteChar
          · simp [ha', hesc', hbs, sq_ne_bs, dq_ne_bs, bt_ne_bs, sq_ne_dq, dq_ne_sq, sq_ne_bt, bt_ne_sq, dq_ne_bt, bt_ne_dq, f1, f2, f3, hop, hc1, hc2]
            refine ⟨by simp [f1], by simp, by simp [f3], rfl, h5, ?_⟩
            intro k n hkn
            injection hkn with hkn'
            injection hkn' with hk hn
            subst hk
            subst hn
            exact ⟨rfl, h5⟩
          · by_cases hc3 : c = backtickChar
            · simp [ha', hesc', hbs, sq_ne_bs, dq_ne_bs, bt_ne_bs, sq_ne_dq, dq_ne_sq, sq_ne_bt, bt_ne_sq, dq_ne_bt, bt_ne_dq, f1, f2, f3, hop, hc1, hc2, hc3]
              refine ⟨by simp [f1], by simp [f2], by simp, rfl, h5, ?_⟩
              intro k n hkn
              injection hkn with hkn'
              injection hkn' with hk hn
              subst hk
              subst hn
              exact ⟨rfl, h5⟩
            · simp [ha', hesc', hbs, sq_ne_bs, dq_ne_bs, bt_ne_bs, sq_ne_dq, dq_ne_sq, sq_ne_bt, bt_ne_sq, dq_ne_bt, bt_ne_dq, f1, f2, f3, hop, hc1, hc2, hc3]
              exact ⟨by simp [f1, hop], by simp [f2, hop], by simp [f3, hop], h4, h5,
                by simp [hop]⟩
      | some km =>
        obtain ⟨k, m⟩ := km
        cases k with
        | single =>
          have f1 : a.inSingleQuote = true := h1.mpr ⟨m, hop⟩
          have f2 : a.inDoubleQuote = false := eqTrueIffFalse h2 (by simp [hop])
          have f3 : a.inTemplateLiteral = false := eqTrueIffFalse h3 (by simp [hop])
          by_cases hc1 : c = squoteChar
          · simp [ha', hesc', hbs, sq_ne_bs, dq_ne_bs, bt_ne_bs, sq_ne_dq, dq_ne_sq, sq_ne_bt, bt_ne_sq, dq_ne_bt, bt_ne_dq, f1, f2, f3, hop, hc1, kindOpenChar]
            exact ⟨by simp, by simp [f2], by simp [f3], rfl, h5, by simp⟩
          · simp [ha', hesc', hbs, sq_ne_bs, dq_ne_bs, bt_ne_bs, sq_ne_dq, dq_ne_sq, sq_ne_bt, bt_ne_sq, dq_ne_bt, bt_ne_dq, f1, f2, f3, hop, hc1, kindOpenChar]
            refine ⟨by simp [f1, hop], by simp [f2, hop], by simp [f3, hop], h4, h5, ?_⟩
            intro kk nn hkn
            rw [hop] at hkn
            injection hkn with hkn'
            injection hkn' with hk hn
            subst hk
            subst hn
            exact h6 StrKind.single m hop
        | double =>
          have f1 : a.inSingleQuote = false := eqTrueIffFalse h1 (by simp [hop])
          have f2 : a.inDoubleQuote = true := h2.mpr ⟨m, hop⟩
          have f3 : a.inTemplateLiteral = false := eqTrueIffFalse h3 (by simp [hop])
          by_cases hc2 : c = dquoteChar
          · simp [ha', hesc', hbs, sq_ne_bs, dq_ne_bs, bt_ne_bs, sq_ne_dq, dq_ne_sq, sq_ne_bt, bt_ne_sq, dq_ne_bt, bt_ne_dq, f1, f2, f3, hop, hc2, kindOpenChar]
            exact ⟨by simp [f1], by simp, by simp [f3], rfl, h5, by simp⟩
          · simp [ha', hesc', hbs, sq_ne_bs, dq_ne_bs, bt_ne_bs, sq_ne_dq, dq_ne_sq, sq_ne_bt, bt_ne_sq, dq_ne_bt, bt_ne_dq, f1, f2, f3, hop, hc2, kindOpenChar]
            refine ⟨by simp [f1, hop], by simp [f2, hop], by simp [f3, hop], h4, h5, ?_⟩
            intro kk nn hkn
            rw [hop] at hkn
            injection hkn with hkn'
            injection hkn' with hk hn
            subst hk
            subst hn
            exact h6 StrKind.double m hop
        | template =>
          have f1 : a.inSingleQuote = false := eqTrueIffFalse h1 (by simp [hop])
          have f2 : a.inDoubleQuote = false := eqTrueIffFalse h2 (by simp [hop])
          have f3 : a.inTemplateLiteral = true := h3.mpr ⟨m, hop⟩
          by_cases hc3 : c = backtickChar
          · simp [ha', hesc', hbs, sq_ne_bs, dq_ne_bs, bt_ne_bs, sq_ne_dq, dq_ne_sq, sq_ne_bt, bt_ne_sq, dq_ne_bt, bt_ne_dq, f1, f2, f3, hop, hc3, kindOpenChar]
            exact ⟨by simp [f1], by simp [f2], by simp, rfl, h5, by simp⟩
          · simp [ha', hesc', hbs, sq_ne_bs, dq_ne_bs, bt_ne_bs, sq_ne_dq, dq_ne_sq, sq_ne_bt, bt_ne_sq, dq_ne_bt, bt_ne_dq, f1, f2, f3, hop, hc3, kindOpenChar]
            refine ⟨by simp [f1, hop], by simp [f2, hop], by simp [f3, hop], h4, h5, ?_⟩
            intro kk nn hkn
            rw [hop] at hkn
            injection hkn with hkn'
            injection hkn' with hk hn
            subst hk
            subst hn
            exact h6 StrKind.template m hop


theorem scanRel_step (c : Char) {a : JsScanState} {b : SpecScanState}
    (h : ScanRel a b) : ScanRel (jsScanStep a c) (specScanStep b c) :=
  scanRel_core c (scanRel_bump c h)

theorem scanRel_foldl (l : List Char) {a : JsScanState} {b : SpecScanState}
    (h : ScanRel a b) :
    ScanRel (l.foldl jsScanStep a) (l.foldl specScanStep b) := by
  induction l generalizing a b with
  | nil => exact h
  | cons c cs ih => exact ih (scanRel_step c h)

theorem scanRel_init : ScanRel jsScanInit { openStr := none, esc := false, line := 1 } := by
  refine ⟨by simp [jsScanInit], by simp [jsScanInit], by simp [jsScanInit],
    rfl, rfl, by simp⟩

theorem scanRel_final (code : String) :
    ScanRel (jsScanFinal code) (specScanFinal code) :=
  scanRel_foldl code.toList scanRel_init

/-! ## Characterizing the Python indentation heuristic (claim C8) -/

/-- `getLast?.getD` peels a cons by moving the head into the default. -/
theorem getLast?_cons_getD : ∀ (L : List Nat) (x d : Nat),
    ((x :: L).getLast?).getD d = (L.getLast?).getD x
  | [], _, _ => rfl
  | y :: ys, x, d => by
    rw [List.getLast?_cons_cons]
    rw [getLast?_cons_getD ys y d, getLast?_cons_getD ys y x]

/-- Walking one indent updates the "previous non-zero indent" seed exactly
as the loop updates `previousIndent`. -/
theorem prevPositive_cons (p x : Nat) (l : List Nat) :
    prevPositive p (x :: l) = prevPositive (if 0 < x then x else p) l := by
  unfold prevPositive
  by_cases hx : 0 < x <;> simp [List.filter_cons, hx, getLast?_cons_getD]

/-- Peeling one indent off the decomposition form. -/
theorem pyDecomp_cons (x : Nat) (xs : List Nat) (prev : Nat) :
    (∃ pre ind post, x :: xs = pre ++ ind :: post ∧ 0 < ind ∧ 0 < prevPositive prev pre ∧
        ((¬ ind % 2 = 0 ∧ ¬ ind % 4 = 0) ∨
         (prevPositive prev pre < ind ∧ ¬ (ind - prevPositive prev pre) % 2 = 0 ∧
          ¬ (ind - prevPositive prev pre) % 4 = 0)))
    ↔ ((0 < x ∧ 0 < prev ∧ ((¬ x % 2 = 0 ∧ ¬ x % 4 = 0) ∨
          (prev < x ∧ ¬ (x - prev) % 2 = 0 ∧ ¬ (x - prev) % 4 = 0)))
       ∨ (∃ pre ind post, xs = pre ++ ind :: post ∧ 0 < ind ∧
            0 < prevPositive (if 0 < x then x else prev) pre ∧
            ((¬ ind % 2 = 0 ∧ ¬ ind % 4 = 0) ∨
             (prevPositive (if 0 < x then x else prev) pre < ind ∧
              ¬ (ind - prevPositive (if 0 < x then x else prev) pre) % 2 = 0 ∧
              ¬ (ind - prevPositive (if 0 < x then x else prev) pre) % 4 = 0)))) := by
  constructor
  · rintro ⟨pre, ind, post, heq, hpos, hprev, hAB⟩
    cases pre with
    | nil =>
      injection heq with hx hrest
      subst hx
      subst hrest
      left
      exact ⟨hpos, hprev, hAB⟩
    | cons p ps =>
      injection heq with hx hrest
      subst hx
      right
      refine ⟨ps, ind, post, hrest, hpos, ?_, ?_⟩
      · rw [prevPositive_cons] at hprev
        exact hprev
      · rw [prevPositive_cons] at hAB
        exact hAB
  · rintro (⟨hx, hp, hAB⟩ | ⟨pre, ind, post, heq, hpos, hprev, hAB⟩)
    · exact ⟨[], x, xs, rfl, hx, hp, hAB⟩
    · refine ⟨x :: pre, ind, post, by rw [heq, List.cons_append], hpos, ?_, ?_⟩
      · rw [prevPositive_cons]
        exact hprev
      · rw [prevPositive_cons]
        exact hAB

/-- The numeric loop flags exactly when some position satisfies the flag
condition relative to the previous non-zero indent. -/
theorem pyFlagNat_iff (inds : List Nat) : ∀ (prev : Nat),
    pyFlagNat prev inds = true ↔
      ∃ pre ind post, inds = pre ++ ind :: post ∧ 0 < ind ∧ 0 < prevPositive prev pre ∧
        ((¬ ind % 2 = 0 ∧ ¬ ind % 4 = 0) ∨
         (prevPositive prev pre < ind ∧ ¬ (ind - prevPositive prev pre) % 2 = 0 ∧
          ¬ (ind - prevPositive prev pre) % 4 = 0)) := by
  induction inds with
  | nil =>
    intro prev
    constructor
    · intro h
      exact absurd h (by simp [pyFlagNat])
    · rintro ⟨pre, ind, post, heq, -⟩
      cases pre with
      | nil => exact List.noConfusion heq
      | cons q qs => exact List.noConfusion heq
  | cons x xs ih =>
    intro prev
    have hrec := ih (if 0 < x then x else prev)
    have hL : pyFlagNat prev (x :: xs) = true ↔
        ((0 < x ∧ 0 < prev) ∧ ((x % 4 ≠ 0 ∧ x % 2 ≠ 0) ∨
          (prev < x ∧ (x - prev) % 2 ≠ 0 ∧ (x - prev) % 4 ≠ 0)))
        ∨ pyFlagNat (if 0 < x then x else prev) xs = true := by
      simp only [pyFlagNat]
      by_cases h0 : 0 < x ∧ 0 < prev
      · rw [if_pos h0]
        by_cases hA : x % 4 ≠ 0 ∧ x % 2 ≠ 0
        · rw [if_pos hA]
          constructor
          · intro _
            exact Or.inl ⟨h0, Or.inl hA⟩
          · intro _
            rfl
        · rw [if_neg hA]
          by_cases hB : prev < x ∧ (x - prev) % 2 ≠ 0 ∧ (x - prev) % 4 ≠ 0
          · rw [if_pos hB]
            constructor
            · intro _
              exact Or.inl ⟨h0, Or.inr hB⟩
            · intro _
              rfl
          · rw [if_neg hB]
            constructor
            · intro hr
              exact Or.inr hr
            · rintro (⟨-, hAB⟩ | hr)
              · rcases hAB with hA1 | hB1
                · exact absurd hA1 hA
                · exact absurd hB1 hB
              · exact hr
      · rw [if_neg h0]
        constructor
        · intro hr
          exact Or.inr hr
        · rintro (⟨h01, -⟩ | hr)
          · exact absurd h01 h0
          · exact hr
    rw [hL, hrec, pyDecomp_cons]
    have hC : ((0 < x ∧ 0 < prev) ∧ ((x % 4 ≠ 0 ∧ x % 2 ≠ 0) ∨
        (prev < x ∧ (x - prev) % 2 ≠ 0 ∧ (x - prev) % 4 ≠ 0)))
        ↔ (0 < x ∧ 0 < prev ∧ ((¬ x % 2 = 0 ∧ ¬ x % 4 = 0) ∨
          (prev < x ∧ ¬ (x - prev) % 2 = 0 ∧ ¬ (x - prev) % 4 = 0))) := by
      constructor
      · rintro ⟨⟨hx, hp⟩, hab⟩
        refine ⟨hx, hp, ?_⟩
        rcases hab with ⟨ha4, ha2⟩ | hb
        · exact Or.inl ⟨ha2, ha4⟩
        · exact Or.inr hb
      · rintro ⟨hx, hp, hab⟩
        refine ⟨⟨hx, hp⟩, ?_⟩
        rcases hab with ⟨ha2, ha4⟩ | hb
        · exact Or.inl ⟨ha4, ha2⟩
        · exact Or.inr hb
    exact or_congr hC Iff.rfl

/-- The line loop agrees with the numeric loop on the indent projection. -/
theorem pyScanFlag_eq_nat (lines : List String) : ∀ (prev : Nat),
    pyScanFlag prev lines
      = pyFlagNat prev ((lines.filter fun l => !(isCommentLine l)).map leadingWsCount) := by
  induction lines with
  | nil =>
    intro prev
    rfl
  | cons line rest ih =>
    intro prev
    by_cases hcom : isCommentLine line = true
    · simp [pyScanFlag, hcom, ih]
    · simp only [pyScanFlag, hcom, Bool.false_eq_true, if_false, List.filter_cons]
      simp only [hcom, Bool.not_false, List.map_cons, pyFlagNat]
      simp [ih]

/-- The Python branch's flag is exactly the spec-side condition. -/
theorem pyInconsistent_iff (code : String) :
    pyInconsistent code = true ↔ specPyFlagged code := by
  unfold pyInconsistent specPyFlagged pyIndentSeq
  rw [pyScanFlag_eq_nat, pyFlagNat_iff]

/-! # Claim theorems -/

/-- C5: `isSupportedLanguage(raw)` returns true exactly when lowercasing and
trimming `raw` yields one of the ten identifiers {c, cpp, python, javascript,
typescript, java, php, go, html, css}; in particular it is true for
case/whitespace variants of those, false for the empty string and for
anything outside the set, and it is a total function (never throws). -/
theorem isSupportedLanguage_characterization (s : String) :
    (isSupportedLanguage s = true ↔
      (normalizeLanguageId s = "c" ∨ normalizeLanguageId s = "cpp" ∨
       normalizeLanguageId s = "python" ∨ normalizeLanguageId s = "javascript" ∨
       normalizeLanguageId s = "typescript" ∨ normalizeLanguageId s = "java" ∨
       normalizeLanguageId s = "php" ∨ normalizeLanguageId s = "go" ∨
       normalizeLanguageId s = "html" ∨ normalizeLanguageId s = "css")) ∧
    isSupportedLanguage "  TypeScript  " = true ∧
    isSupportedLanguage "" = false ∧
    isSupportedLanguage "ruby" = false := by
  refine ⟨?_, by decide, by decide, by decide⟩
  have h1 : isSupportedLanguage s = true ↔ normalizeLanguageId s ∈ SUPPORTED_LANGUAGES :=
    List.elem_iff
  rw [h1]
  simp [SUPPORTED_LANGUAGES]

/-- C6: for languageId exactly "c" or "cpp" and non-blank code, `checkSyntax`
reports an error exactly per the spec's three ordered checks (no `main(` /
`main (`; `printf(` without a semicolon; stripped open braces exceeding
stripped close braces), as captured by the spec-side `cCheckSpec`. -/
theorem checkSyntax_c_cpp_spec (code lid : String)
    (hlid : lid = "c" ∨ lid = "cpp") (hnb : ¬ jsTrim code = "") :
    checkSyntax code lid = cCheckSpec code := by
  unfold checkSyntax cCheckSpec
  rw [if_neg hnb]
  rcases hlid with h | h <;> subst h <;> simp [jsIncludes_eq_occursIn]

/-- C6 witness: the spec's own pass example — balanced braces with a `main(`
entry point — and its evaluation. -/
theorem checkSyntax_c_cpp_spec_witness :
    checkSyntax "int main() \x7b return 0; \x7d" "c"
        = cCheckSpec "int main() \x7b return 0; \x7d" ∧
    (checkSyntax "int main() \x7b return 0; \x7d" "c").hasError = false :=
  ⟨checkSyntax_c_cpp_spec "int main() \x7b return 0; \x7d" "c" (Or.inl rfl) (by decide),
   by decide⟩

/-- C1 counterexample: with a backend oracle whose backends all return a
distinctive result, `executeCode` on the identifier "Python" (supported by
the registry, but not exact lowercase) returns the simulator's result, not
the backend's — routing is not invariant under case. -/
theorem executeCode_Python_routes_to_simulator :
    executeCode "print(1)" "Python" (fun _ => .ok ⟨"BACKEND OUTPUT", none, 7⟩) 3
        = simulateExecution "print(1)" "Python" 3 ∧
    executeCode "print(1)" "Python" (fun _ => .ok ⟨"BACKEND OUTPUT", none, 7⟩) 3
        ≠ ⟨"BACKEND OUTPUT", none, 7⟩ := by
  constructor
  · decide
  · decide

/-- C1 (amended): `executeCode` routes to a toolchain backend exactly when
the raw language string is one of the eight exact lowercase identifiers;
every other string — including case or whitespace variants such as "Python"
or "  c  ", and html, css, or unknown values — goes to the output simulator.
Routing is by strict equality on the un-normalized identifier. -/
theorem executeCode_routing (code lang : String)
    (run : Backend → Except (Option String) CompilerResult) (t : Nat) :
    (routeOf lang = none ↔
      ¬ (lang = "c" ∨ lang = "cpp" ∨ lang = "python" ∨ lang = "javascript" ∨
         lang = "typescript" ∨ lang = "java" ∨ lang = "php" ∨ lang = "go")) ∧
    (∀ b, routeOf lang = some b → executeCode code lang run t = catchResult (run b) t) ∧
    (routeOf lang = none → executeCode code lang run t = simulateExecution code lang t) := by
  refine ⟨?_, ?_, ?_⟩
  · unfold routeOf
    split_ifs with h1 h2 h3 h4 h5 h6 h7 h8 <;> simp_all
  · intro b hb
    simp only [executeCode]
    rw [hb]
  · intro hb
    simp only [executeCode]
    rw [hb]
    rfl

/-- C1 witness: exact "go" routes to the Go backend; "HTML" (not one of the
eight exact identifiers) routes to the simulator. -/
theorem executeCode_routing_witness :
    executeCode "x" "go" (fun _ => Except.ok ⟨"ok", none, 1⟩) 5
        = catchResult (Except.ok ⟨"ok", none, 1⟩) 5 ∧
    executeCode "x" "HTML" (fun _ => Except.ok ⟨"ok", none, 1⟩) 5
        = simulateExecution "x" "HTML" 5 :=
  ⟨(executeCode_routing "x" "go" (fun _ => Except.ok ⟨"ok", none, 1⟩) 5).2.1
      Backend.go (by decide),
   (executeCode_routing "x" "HTML" (fun _ => Except.ok ⟨"ok", none, 1⟩) 5).2.2
      (by decide)⟩

/-- C3: `executeCode` never propagates an exception — it is a total function
into `CompilerResult` thanks to the catch-all; a backend throw with payload
`e` resolves to output "" and error `jsErrMessage e` (the exception's message,
or the fixed unknown-error text for a non-Error throw), stamped with the
elapsed time; and every result's execution time is non-negative. -/
theorem executeCode_no_throw (code lang : String)
    (run : Backend → Except (Option String) CompilerResult) (t : Nat)
    (b : Backend) (e : Option String) :
    0 ≤ (executeCode code lang run t).executionTime ∧
    (routeOf lang = some b → run b = Except.error e →
      executeCode code lang run t = ⟨"", some (jsErrMessage e), t⟩) := by
  refine ⟨Nat.zero_le _, ?_⟩
  intro hb he
  have h2 : executeCode code lang run t = catchResult (run b) t := by
    simp only [executeCode]
    rw [hb]
  rw [h2, he]
  rfl

/-- C3 witness: a C-backend throw with message "boom" resolves to the
catch-all result. -/
theorem executeCode_no_throw_witness :
    0 ≤ (executeCode "x" "c" (fun _ => Except.error (some "boom")) 5).executionTime ∧
    executeCode "x" "c" (fun _ => Except.error (some "boom")) 5
        = ⟨"", some "boom", 5⟩ :=
  ⟨(executeCode_no_throw "x" "c" (fun _ => Except.error (some "boom")) 5
      Backend.c (some "boom")).1,
   (executeCode_no_throw "x" "c" (fun _ => Except.error (some "boom")) 5
      Backend.c (some "boom")).2 (by decide) rfl⟩

/-- C4: for the two-phase compiled backends (C, C++, Java), a failed compile
phase returns immediately with output "" and error = the captured diagnostic
(or the generic "Compilation error" when none or empty was captured); the
run-phase thunk is never forced, so the result is independent of it. -/
theorem compile_failure_short_circuits (so se : Option String)
    (r1 r2 : Unit → PhaseResult) (tc tr t0 : Nat) (code cls : String)
    (hcls : javaClassMatch code = some cls) :
    compileAndRunC (.err so se) r1 tc tr = ⟨"", some (jsOrStr se "Compilation error"), tc⟩ ∧
    compileAndRunC (.err so se) r1 tc tr = compileAndRunC (.err so se) r2 tc tr ∧
    compileAndRunCpp (.err so se) r1 tc tr = ⟨"", some (jsOrStr se "Compilation error"), tc⟩ ∧
    compileAndRunCpp (.err so se) r1 tc tr = compileAndRunCpp (.err so se) r2 tc tr ∧
    compileAndRunJava code (.err so se) r1 t0 tc tr
        = ⟨"", some (jsOrStr se "Compilation error"), tc⟩ ∧
    compileAndRunJava code (.err so se) r1 t0 tc tr
        = compileAndRunJava code (.err so se) r2 t0 tc tr := by
  refine ⟨rfl, rfl, rfl, rfl, ?_, ?_⟩ <;> simp [compileAndRunJava, hcls]

/-- C4 witness: a concrete failed compile with diagnostic "diag" on the C and
Java backends, with two different run thunks. -/
theorem compile_failure_short_circuits_witness :
    compileAndRunC (.err none (some "diag")) (fun _ => PhaseResult.ok "X" "") 4 9
        = ⟨"", some "diag", 4⟩ ∧
    compileAndRunJava "public class Main" (.err none (some "diag"))
        (fun _ => PhaseResult.ok "X" "") 1 4 9 = ⟨"", some "diag", 4⟩ := by
  have h := compile_failure_short_circuits none (some "diag")
    (fun _ => PhaseResult.ok "X" "") (fun _ => PhaseResult.err none none) 4 9 1
    "public class Main" "Main" (by decide)
  exact ⟨h.1, h.2.2.2.2.1⟩

/-- C2 counterexample: on the C backend's successful exit path the workspace
is created but no removal ever occurs during the call (the `finally` block is
empty), contradicting the claim that every backend removes its workspace
after the attempt. -/
theorem c_backend_success_leaves_workspace :
    FsEffect.mkTempDir "c-compiler" ∈ compileAndRunC_workspaceTrace TwoPhasePath.runOk ∧
    FsEffect.removeDir ∉ compileAndRunC_workspaceTrace TwoPhasePath.runOk := by
  decide

/-- C2 (amended): no backend removes its workspace on any exit path — each
creates it and delegates cleanup to `temp.track()`, which removes tracked
directories only at process exit — so a workspace persists past the
individual request's lifetime.  Stated over every backend/exit-branch trace
(and over every Java class name), together with the emptiness of the shared
`finally` block. -/
theorem no_backend_removes_workspace :
    (backendWorkspaceTraces.all fun tr => !(tr.contains FsEffect.removeDir)) = true ∧
    (∀ cls p, (compileAndRunJava_workspaceTrace cls p).contains FsEffect.removeDir = false) ∧
    backendFinallyCleanup = [] := by
  refine ⟨by decide, ?_, rfl⟩
  intro cls p
  cases p <;> simp [compileAndRunJava_workspaceTrace, backendFinallyCleanup]

/-- C7: for languageId "javascript" or "typescript", non-blank code and
balanced stripped braces, `checkSyntax` is exactly determined by the
spec-side linear scan `specScanFinal` (backslash escapes the next character
including inside strings; every newline bumps the line counter including
inside strings): if the scan ends inside a string of kind `k` opened on line
`n`, the result is the interpolated unterminated-string message for `k` and
`n`; otherwise there is no error. -/
theorem checkSyntax_js_unterminated (code lid : String)
    (hlid : lid = "javascript" ∨ lid = "typescript")
    (hnb : ¬ jsTrim code = "")
    (hbr : ¬ (stripForBraces code).count closeBraceChar
            < (stripForBraces code).count openBraceChar) :
    checkSyntax code lid =
      match (specScanFinal code).openStr with
      | some (k, n) => ⟨true, some (unterminatedMsg (kindName k) n)⟩
      | none => ⟨false, none⟩ := by
  obtain ⟨h1, h2, h3, h4, h5, h6⟩ := scanRel_final code
  have hbranch : checkSyntax code lid =
      (if (jsScanFinal code).inSingleQuote || (jsScanFinal code).inDoubleQuote
          || (jsScanFinal code).inTemplateLiteral then
        ⟨true, some (unterminatedMsg (jsScanFinal code).stringType
          (jsScanFinal code).stringStartLine)⟩
      else ⟨false, none⟩) := by
    rcases hlid with h | h <;> subst h <;>
      · simp only [checkSyntax]
        rw [if_neg hnb, if_neg (by decide), if_neg (by decide), if_pos (by decide),
          if_neg hbr]
  rw [hbranch]
  cases hop : (specScanFinal code).openStr with
  | none =>
    have f1 : (jsScanFinal code).inSingleQuote = false := eqTrueIffFalse h1 (by simp [hop])
    have f2 : (jsScanFinal code).inDoubleQuote = false := eqTrueIffFalse h2 (by simp [hop])
    have f3 : (jsScanFinal code).inTemplateLiteral = false := eqTrueIffFalse h3 (by simp [hop])
    simp [f1, f2, f3]
  | some kn =>
    obtain ⟨k, n⟩ := kn
    obtain ⟨ht, hs⟩ := h6 k n hop
    have hflag : ((jsScanFinal code).inSingleQuote || (jsScanFinal code).inDoubleQuote
        || (jsScanFinal code).inTemplateLiteral) = true := by
      cases k with
      | single => simp [h1.mpr ⟨n, hop⟩]
      | double => simp [h2.mpr ⟨n, hop⟩]
      | template => simp [h3.mpr ⟨n, hop⟩]
    simp [hflag, ht, hs]

/-- C7 witness: the spec's example — an unterminated double-quoted string
spilling over a newline — reports a double quote opened on line 1. -/
theorem checkSyntax_js_unterminated_witness :
    checkSyntax "const s = \"unterminated\nstring" "javascript"
      = ⟨true, some "SyntaxError: unterminated double quote starting at line 1"⟩ := by
  have h := checkSyntax_js_unterminated "const s = \"unterminated\nstring" "javascript"
    (Or.inl rfl) (by decide) (by decide)
  rw [h]
  decide

/-- C8 counterexample: "a\n   b" has a non-comment, non-blank line of indent
3 — not a multiple of 2 or 4 — yet `checkSyntax` reports no error, because
both heuristic checks are guarded by `previousIndent > 0` and no earlier
line had positive indent. -/
theorem python_indent_first_line_not_flagged :
    checkSyntax "a\n   b" "python" = ⟨false, none⟩ ∧
    leadingWsCount "   b" = 3 ∧ ¬ (3 % 2 = 0) ∧ ¬ (3 % 4 = 0) := by
  decide

/-- C8 (amended): for non-blank code the Python branch reports the
IndentationError exactly when some walked (non-comment, non-blank) line has
positive indent, the tracked previous non-zero indent is also positive (an
earlier walked line was already indented), and either the line's indent or
an indent increase's delta is not a multiple of 2 or 4; in particular the
first positively-indented line alone is never flagged. -/
theorem checkSyntax_python_spec (code : String) (hnb : ¬ jsTrim code = "") :
    ((checkSyntax code "python").hasError = true ↔ specPyFlagged code) ∧
    (checkSyntax code "python" = ⟨true, some indentMsg⟩ ∨
     checkSyntax code "python" = ⟨false, none⟩) := by
  have hbranch : checkSyntax code "python" =
      (if pyInconsistent code then ⟨true, some indentMsg⟩ else ⟨false, none⟩) := by
    simp only [checkSyntax]
    rw [if_neg hnb, if_neg (by decide), if_pos (by decide)]
  rw [hbranch]
  constructor
  · by_cases h : pyInconsistent code = true
    · rw [if_pos h]
      simp [(pyInconsistent_iff code).mp h]
    · have h' : ¬ specPyFlagged code := fun hs => h ((pyInconsistent_iff code).mpr hs)
      rw [if_neg h]
      simp [h']
  · by_cases h : pyInconsistent code = true
    · rw [if_pos h]
      exact Or.inl rfl
    · rw [if_neg h]
      exact Or.inr rfl

/-- C8 witness: the spec's flagged example (3 then 7 spaces) and its
unflagged uniform-4-space counterpart. -/
theorem checkSyntax_python_spec_witness :
    ((checkSyntax "def f():\n   x = 1\n       y" "python").hasError = true ↔
        specPyFlagged "def f():\n   x = 1\n       y") ∧
    (checkSyntax "def f():\n   x = 1\n       y" "python").hasError = true ∧
    (checkSyntax "def f():\n    x = 1\n    y = 2" "python").hasError = false :=
  ⟨(checkSyntax_python_spec "def f():\n   x = 1\n       y" (by decide)).1,
   by decide, by decide⟩

/-- C9: `simulateExecution` is total and synchronous: every result carries
error = null and a non-empty output; on the spec's Python example the output
is one line per print call — the quoted literal when present, else the raw
unevaluated argument text; and when extraction yields nothing for a language
other than html/css, the fixed no-output message is substituted. -/
theorem simulateExecution_spec :
    (∀ code lang t, (simulateExecution code lang t).error = none ∧
      ¬ (simulateExecution code lang t).output = "") ∧
    (∀ t, simulateExecution "print(\"hello\")\nprint(x)" "python" t
        = ⟨"hello\nx\n", none, t⟩) ∧
    (∀ code lang t, ¬ lang = "html" → ¬ lang = "css" → extractedOutput code lang = "" →
      (simulateExecution code lang t).output = noOutputMsg) := by
  refine ⟨?_, ?_, ?_⟩
  · intro code lang t
    refine ⟨rfl, ?_⟩
    simp only [simulateExecution]
    by_cases hh : lang = "html"
    · subst hh
      rw [show extractedOutput code "html" = frontendMsg from rfl]
      rw [if_neg (by simp)]
      decide
    · by_cases hc : lang = "css"
      · subst hc
        rw [show extractedOutput code "css" = frontendMsg from rfl]
        rw [if_neg (by simp)]
        decide
      · by_cases hout : extractedOutput code lang = ""
        · rw [if_pos ⟨hout, hh, hc⟩]
          decide
        · rw [if_neg (by simp [hout])]
          exact hout
  · intro t
    simp only [simulateExecution]
    rw [show extractedOutput "print(\"hello\")\nprint(x)" "python" = "hello\nx\n" by decide]
    rw [if_neg (by decide)]
  · intro code lang t hh hc hout
    simp only [simulateExecution]
    rw [if_pos ⟨hout, hh, hc⟩]

/-- C9 witness: print-free Python code gets the fixed no-output message, and
the spec example evaluates as claimed. -/
theorem simulateExecution_spec_witness :
    (simulateExecution "x = 1" "python" 2).output = noOutputMsg ∧
    simulateExecution "print(\"hello\")\nprint(x)" "python" 7 = ⟨"hello\nx\n", none, 7⟩ :=
  ⟨simulateExecution_spec.2.2 "x = 1" "python" 2 (by decide) (by decide) (by decide),
   simulateExecution_spec.2.1 7⟩

/-! ## Controller message disambiguation (claim C10) -/

theorem string_ne_of_head {a b : String} (h : a.data.head? ≠ b.data.head?) :
    a ≠ b :=
  fun e => h (by rw [e])

theorem unsupportedMsg_ne_noCode (l : String) :
    ("Language '" ++ l ++ "' is not supported") ≠ noCodeMsg := by
  apply string_ne_of_head
  rw [show ("Language '" ++ l ++ "' is not supported").data.head? = some 'L' from rfl]
  decide

theorem unterminated_ne_noCode (t : String) (n : Nat) :
    unterminatedMsg t n ≠ noCodeMsg := by
  apply string_ne_of_head
  rw [show (unterminatedMsg t n).data.head? = some 'S' from rfl]
  decide

/-- The "No code to compile" message arises in `checkSyntax` only from the
blank-input branch. -/
theorem checkSyntax_noCode_only_blank (code lid : String)
    (h : (checkSyntax code lid).errorMessage = some noCodeMsg) : jsTrim code = "" := by
  by_contra hnb
  simp only [checkSyntax] at h
  rw [if_neg hnb] at h
  by_cases h1 : lid = "c" ∨ lid = "cpp"
  · rw [if_pos h1] at h
    split_ifs at h <;> simp_all [mainMissingMsg, semicolonMsg, cBraceMsg, noCodeMsg]
  · rw [if_neg h1] at h
    by_cases h2 : lid = "python"
    · rw [if_pos h2] at h
      split_ifs at h <;> simp_all [indentMsg, noCodeMsg]
    · rw [if_neg h2] at h
      by_cases h3 : lid = "javascript" ∨ lid = "typescript"
      · rw [if_pos h3] at h
        split_ifs at h with hbr hsc
        · simp_all [jsBraceMsg, noCodeMsg]
        · simp only [Option.some.injEq] at h
          exact absurd h (unterminated_ne_noCode _ _)
      · rw [if_neg h3] at h
        simp at h

/-- C10: a request whose `code` field is the empty string is rejected with
400 "Code and language are required" for every language (valid included),
indistinguishably from an absent field; hence the syntax checker's
"No code to compile." response is reachable over HTTP only for non-empty,
whitespace-only code. -/
theorem controller_empty_code (language : Option String) (code : String)
    (run : Backend → Except (Option String) CompilerResult) (t : Nat) :
    compileCode (some "") language run t
        = HttpResp.badRequest (some "Code and language are required") ∧
    compileCode none language run t = compileCode (some "") language run t ∧
    (compileCode (some code) language run t = HttpResp.badRequest (some noCodeMsg) →
      ¬ code = "" ∧ jsTrim code = "") := by
  refine ⟨rfl, rfl, ?_⟩
  intro h
  by_cases hc : code = ""
  · subst hc
    have h1 : compileCode (some "") language run t
        = HttpResp.badRequest (some "Code and language are required") := rfl
    rw [h1] at h
    simp [noCodeMsg] at h
  · refine ⟨hc, ?_⟩
    simp only [compileCode, Option.getD_some] at h
    have hfal : jsFalsyField (some code) = false := by simp [jsFalsyField, hc]
    rw [hfal] at h
    by_cases hlang : jsFalsyField language = true
    · rw [hlang] at h
      simp [noCodeMsg] at h
    · have hlang' : jsFalsyField language = false := by
        cases hl : jsFalsyField language
        · rfl
        · exact absurd hl hlang
      rw [hlang'] at h
      simp only [Bool.or_false, Bool.false_eq_true, if_false] at h
      by_cases hsup : isSupportedLanguage ((language.getD "")) = true
      · simp only [hsup, Bool.not_true, Bool.false_eq_true, if_false] at h
        by_cases hse : (checkSyntax code (language.getD "")).hasError = true
        · rw [if_pos hse] at h
          injection h with h'
          exact checkSyntax_noCode_only_blank code (language.getD "") h'
        · rw [if_neg hse] at h
          exact absurd h (by simp)
      · have hsup' : isSupportedLanguage ((language.getD "")) = false := by
          cases hs : isSupportedLanguage ((language.getD ""))
          · rfl
          · exact absurd hs hsup
        simp only [hsup', Bool.not_false, if_true] at h
        injection h with h'
        injection h' with h''
        exact absurd h'' (unsupportedMsg_ne_noCode _)

/-- C10 witness: empty-string code with the valid language "c" gets the
required-fields rejection; whitespace-only code " " is non-empty and blank
after trimming, as forced by a concrete "No code to compile" response. -/
theorem controller_empty_code_witness :
    compileCode (some "") (some "c") (fun _ => Except.ok ⟨"", none, 0⟩) 0
        = HttpResp.badRequest (some "Code and language are required") ∧
    (¬ (" " : String) = "" ∧ jsTrim " " = "") :=
  ⟨(controller_empty_code (some "c") "x" (fun _ => Except.ok ⟨"", none, 0⟩) 0).1,
   (controller_empty_code (some "c") " " (fun _ => Except.ok ⟨"", none, 0⟩) 0).2.2
      (by decide)⟩
